import Mathlib

/-!
Shallow embedding of the egui_file dialog controller (src/lib.rs, src/fs.rs,
src/vfs.rs).  Paths are modelled as lists of components (the empty list is the
filesystem root), the io error type as a plain string message, and the
pluggable virtual filesystem (trait Vfs) together with the ambient metadata
used by FileInfo::new as an explicit Env record.  Rust operations that can
panic (unchecked Vec indexing) are embedded as Option-returning functions,
with none standing for the panic.
-/

namespace EguiFile

/-- Kind of a filesystem object, as classified by std fs metadata
(FileType::is_file / is_dir; Other covers symlinks, sockets, etc.). -/
inductive FType where
  | File
  | Dir
  | Other
deriving DecidableEq, Repr

/-- Embedding of fs.rs FileInfo: a path, the (possibly unavailable) file
type from metadata, and the mutable selected flag. -/
structure FileInfo where
  path : List String
  file_type : Option FType
  selected : Bool
deriving DecidableEq, Repr

/-- FileInfo::is_file: file_type.is_some_and(is_file). -/
def FileInfo.is_file (e : FileInfo) : Bool :=
  match e.file_type with
  | some .File => true
  | _ => false

/-- FileInfo::is_dir: file_type.is_some_and(is_dir). -/
def FileInfo.is_dir (e : FileInfo) : Bool :=
  match e.file_type with
  | some .Dir => true
  | _ => false

/-- Path::file_name of the embedded path: the last component, if any. -/
def fileNameOf (p : List String) : Option String :=
  p.getLast?

/-- FileInfo::get_file_name (unix flavor): the last path component as a
string, or the empty string when the path has none. -/
def FileInfo.get_file_name (e : FileInfo) : String :=
  (fileNameOf e.path).getD ""

/-- The environment a FileDialog runs against: the pluggable Vfs results
(rename, create_dir, raw directory contents feeding read_folder) plus the
ambient metadata oracle consulted by FileInfo::new. -/
structure Env where
  meta : List String → Option FType
  raw : List String → Except String (List (List String))
  rename_res : List String → List String → Except String Unit
  create_dir_res : List String → Except String Unit

/-- FileInfo::new: stat the path for its file type; the selected flag always
starts out false. -/
def FileInfo.new (env : Env) (path : List String) : FileInfo :=
  { path := path, file_type := env.meta path, selected := false }

/-- Byte/codepoint-wise lexicographic comparison of names, mirroring the
OsStr Ord used by fs.rs when sorting (a.path().file_name().cmp(...)). -/
def cmpName : List Char → List Char → Ordering
  | [], [] => .eq
  | [], _ :: _ => .lt
  | _ :: _, [] => .gt
  | a :: as, b :: bs =>
    match compare a.toNat b.toNat with
    | .eq => cmpName as bs
    | .lt => .lt
    | .gt => .gt

/-- Rust Ord on Option: None sorts before Some. -/
def cmpOptName : Option (List Char) → Option (List Char) → Ordering
  | none, none => .eq
  | none, some _ => .lt
  | some _, none => .gt
  | some a, some b => cmpName a b

/-- Rust Ord on bool: false < true. -/
def cmpBool : Bool → Bool → Ordering
  | false, false => .eq
  | false, true => .lt
  | true, false => .gt
  | true, true => .eq

/-- Sort key used within a group: the file_name of the entry path. -/
def nameKey (e : FileInfo) : Option (List Char) :=
  (fileNameOf e.path).map String.data

/-- The comparator passed to sort_by in Fs::read_folder:
match b.is_dir().cmp(&a.is_dir()) with Less => Less,
Equal => a.path().file_name().cmp(&b.path().file_name()), Greater => Greater. -/
def cmpEntry (a b : FileInfo) : Ordering :=
  match cmpBool b.is_dir a.is_dir with
  | .lt => .lt
  | .eq => cmpOptName (nameKey a) (nameKey b)
  | .gt => .gt

/-- Boolean not-greater relation induced by the comparator; sorting by the
comparator orders the list so that consecutive pairs satisfy it. -/
def leEntry (a b : FileInfo) : Bool :=
  match cmpEntry a b with
  | .gt => false
  | _ => true

/-- Rust str::starts_with('.') on a name, over the string's character
list. -/
def startsWithDot (s : String) : Bool :=
  match s.data with
  | [] => false
  | c :: _ => c = '.'

/-- Fs::read_folder as compiled on unix: build a FileInfo for every raw
directory child, drop non-directories that are neither files (unless system
files are shown) or fail the show filter, drop dot-names unless hidden files
are shown, then sort with folders before files. -/
def read_folder (env : Env) (path : List String) (show_system_files : Bool)
    (show_files_filter : List String → Bool) (show_hidden : Bool) :
    Except String (List FileInfo) :=
  (env.raw path).map fun entries =>
    let file_infos := entries.filterMap fun p =>
      let info := FileInfo.new env p
      if !info.is_dir && !show_system_files && !info.is_file then none
      else if !info.is_dir && !show_files_filter info.path then none
      else if !show_hidden && startsWithDot info.get_file_name then none
      else some info
    file_infos.mergeSort leEntry

/-- Fs::read_folder as compiled on windows: same filtering (without the unix
hidden-name rule), same sort, then the drive roots are prepended, in
enumeration order, ahead of the sorted list when show_drives is set. -/
def read_folder_win (env : Env) (path : List String) (show_system_files : Bool)
    (show_files_filter : List String → Bool) (show_drives : Bool)
    (drives : List (List String)) : Except String (List FileInfo) :=
  (env.raw path).map fun entries =>
    let file_infos := entries.filterMap fun p =>
      let info := FileInfo.new env p
      if !info.is_dir && !show_system_files && !info.is_file then none
      else if !info.is_dir && !show_files_filter info.path then none
      else some info
    let sorted := file_infos.mergeSort leEntry
    if show_drives then drives.map (FileInfo.new env) ++ sorted else sorted

/-- Dialog state (enum State in lib.rs). -/
inductive State where
  | Open
  | Closed
  | Cancelled
  | Selected
deriving DecidableEq, Repr

/-- Dialog type (enum DialogType in lib.rs). -/
inductive DialogType where
  | SelectFolder
  | OpenFile
  | SaveFile
deriving DecidableEq, Repr

/-- The FileDialog controller state: the fields of struct FileDialog that
carry dialog semantics (window placement and label strings are omitted), with
the two filter closures and the pluggable fs kept as function-valued fields. -/
structure FileDialog where
  path : List String
  path_edit : String
  selected_file : Option FileInfo
  filename_edit : String
  files : Except String (List FileInfo)
  state : State
  dialog_type : DialogType
  show_files_filter : List String → Bool
  filename_filter : String → Bool
  range_start : Option Nat
  multi_select_enabled : Bool
  show_system_files : Bool
  show_hidden : Bool
  new_folder_name_text : String
  env : Env

/-- Rendering of the cursor path into the editable path field. -/
def pathToString (p : List String) : String :=
  "/" ++ String.intercalate "/" p

/-- FileDialog::new. The initial path defaults to the root; when it denotes
a file, its name seeds the filename field and the path is popped to the
parent. The assert that a SelectFolder dialog is not given a file path is
embedded as the none result. -/
def FileDialog.new (dialog_type : DialogType) (initial_path : Option (List String))
    (env : Env) : Option FileDialog :=
  let path := initial_path.getD []
  let info := FileInfo.new env path
  let base : FileDialog :=
    { path := path
      path_edit := pathToString path
      selected_file := none
      filename_edit := ""
      files := .ok []
      state := .Closed
      dialog_type := dialog_type
      show_files_filter := fun _ => true
      filename_filter := fun _ => true
      range_start := none
      multi_select_enabled := false
      show_system_files := false
      show_hidden := false
      new_folder_name_text := "New folder"
      env := env }
  if info.is_file then
    if dialog_type = .SelectFolder then none
    else
      let path := path.dropLast
      some { base with
              filename_edit := info.get_file_name
              path := path
              path_edit := pathToString path }
  else some base

/-- Builder FileDialog::default_filename. -/
def FileDialog.default_filename (s : FileDialog) (filename : String) : FileDialog :=
  { s with filename_edit := filename }

/-- Builder FileDialog::multi_select. -/
def FileDialog.multi_select (s : FileDialog) (b : Bool) : FileDialog :=
  { s with multi_select_enabled := b }

/-- FileDialog::select: a selected non-directory copies its name into the
filename field; the single-selection field is replaced either way. -/
def FileDialog.select (s : FileDialog) (file : Option FileInfo) : FileDialog :=
  let fe :=
    match file with
    | some info => if !info.is_dir then info.get_file_name else s.filename_edit
    | none => s.filename_edit
  { s with filename_edit := fe, selected_file := file }

/-- FileDialog::refresh: re-list the cursor directory, mirror the cursor into
the path field, and clear the single selection (select(None) followed by
selected_file = None). The range anchor is not touched. -/
def FileDialog.refresh (s : FileDialog) : FileDialog :=
  let s1 := { s with
    files := read_folder s.env s.path s.show_system_files s.show_files_filter s.show_hidden
    path_edit := pathToString s.path }
  let s2 := s1.select none
  { s2 with selected_file := none }

/-- FileDialog::set_path. -/
def FileDialog.set_path (s : FileDialog) (p : List String) : FileDialog :=
  FileDialog.refresh { s with path := p }

/-- FileDialog::open. -/
def FileDialog.open_dialog (s : FileDialog) : FileDialog :=
  FileDialog.refresh { s with state := .Open }

/-- FileDialog::confirm. -/
def FileDialog.confirm (s : FileDialog) : FileDialog :=
  { s with state := .Selected }

/-- FileDialog::open_selected. -/
def FileDialog.open_selected (s : FileDialog) : FileDialog :=
  match s.selected_file with
  | some info =>
    if info.is_dir then s.set_path info.path
    else if s.dialog_type = .OpenFile then s.confirm
    else s
  | none =>
    if s.multi_select_enabled && s.dialog_type = .OpenFile then s.confirm
    else s

/-- FileDialog::selection: the paths of the flagged entries, in listing
order; empty when the cached listing is an error. -/
def FileDialog.selection (s : FileDialog) : List (List String) :=
  match s.files with
  | .ok files => files.filterMap fun info =>
      if info.selected then some info.path else none
  | .error _ => []

/-- FileDialog::select_reset_multi (plain click at idx): read the clicked
flag, clear every flag, set the clicked flag to the toggled value, and record
idx as the range anchor. The unchecked files[idx] indexing is embedded as the
none result when idx is out of bounds. -/
def FileDialog.select_reset_multi (s : FileDialog) (idx : Nat) : Option FileDialog :=
  match s.files with
  | .error _ => some s
  | .ok files =>
    if h : idx < files.length then
      let selected_val := (files.get ⟨idx, h⟩).selected
      let cleared := files.map fun file => { file with selected := false }
      some { s with
              files := .ok (cleared.set idx { files.get ⟨idx, h⟩ with selected := !selected_val })
              range_start := some idx }
    else none

/-- FileDialog::select_switch_multi (toggle click at idx): flip the clicked
flag; the anchor becomes idx when the result is selected, and is cleared
otherwise (also cleared when the listing is an error). -/
def FileDialog.select_switch_multi (s : FileDialog) (idx : Nat) : Option FileDialog :=
  match s.files with
  | .error _ => some { s with range_start := none }
  | .ok files =>
    if h : idx < files.length then
      let old := !(files.get ⟨idx, h⟩).selected
      some { s with
              files := .ok (files.set idx { files.get ⟨idx, h⟩ with selected := old })
              range_start := if old then some idx else none }
    else none

/-- Setting the selected flag of every index of l within [lo, hi] (j is the
index of the head of l). -/
def setSelRange : List FileInfo → Nat → Nat → Nat → List FileInfo
  | [], _, _, _ => []
  | e :: es, j, lo, hi =>
    (if lo ≤ j ∧ j ≤ hi then { e with selected := true } else e)
      :: setSelRange es (j + 1) lo hi

/-- FileDialog::select_range (range click at idx): with an anchor set, flag
every index of the inclusive span min(idx, anchor)..=max(idx, anchor); the
loop's unchecked indexing panics when the span end is out of bounds, embedded
as the none result. No-op without an anchor or on an error listing. -/
def FileDialog.select_range (s : FileDialog) (idx : Nat) : Option FileDialog :=
  match s.files with
  | .error _ => some s
  | .ok files =>
    match s.range_start with
    | none => some s
    | some range_start =>
      if max idx range_start < files.length then
        some { s with
                files := .ok (setSelRange files 0 (min idx range_start) (max idx range_start)) }
      else none

/-- FileDialog::can_save. -/
def FileDialog.can_save (s : FileDialog) : Bool :=
  !s.filename_edit.isEmpty && s.filename_filter s.filename_edit

/-- FileDialog::can_open: multi-select scans for a flagged entry whose name
passes the filename filter; single-select tests the filename field only. -/
def FileDialog.can_open (s : FileDialog) : Bool :=
  if s.multi_select_enabled then
    match s.files with
    | .ok files => files.any fun file =>
        file.selected && s.filename_filter file.get_file_name
    | .error _ => false
  else
    !s.filename_edit.isEmpty && s.filename_filter s.filename_edit

/-- FileDialog::can_rename. -/
def FileDialog.can_rename (s : FileDialog) : Bool :=
  if !s.filename_edit.isEmpty then
    match s.selected_file with
    | some file => file.get_file_name != s.filename_edit
    | none => false
  else false

/-- FileDialog::get_folder. -/
def FileDialog.get_folder (s : FileDialog) : List String :=
  match s.selected_file with
  | some info => if info.is_dir then info.path else s.path
  | none => s.path

/-- The per-frame Command collected by ui_in_window. -/
inductive Command where
  | Cancel
  | CreateDirectory
  | Folder
  | Open (info : FileInfo)
  | OpenSelected
  | BrowseDirectory (dir : FileInfo)
  | Refresh
  | Rename (from_p : List String) (to_p : List String)
  | Save (file : FileInfo)
  | Select (info : FileInfo)
  | MultiSelectRange (idx : Nat)
  | MultiSelect (idx : Nat)
  | MultiSelectSwitch (idx : Nat)
  | UpDirectory

/-- The command-apply step at the end of ui_in_window: exactly one command is
applied after rendering. A none result embeds a panic of the multi-select
indexing. -/
def FileDialog.apply_command (s : FileDialog) : Command → Option FileDialog
  | .Select info => some (s.select (some info))
  | .MultiSelect idx => s.select_reset_multi idx
  | .MultiSelectRange idx => s.select_range idx
  | .MultiSelectSwitch idx => s.select_switch_multi idx
  | .Folder =>
    let p := s.get_folder
    some (FileDialog.confirm { s with selected_file := some (FileInfo.new s.env p) })
  | .Open info => some ((s.select (some info)).open_selected)
  | .OpenSelected => some s.open_selected
  | .BrowseDirectory dir => some (FileDialog.open_selected { s with selected_file := some dir })
  | .Save file => some (FileDialog.confirm { s with selected_file := some file })
  | .Cancel => some { s with state := .Cancelled }
  | .Refresh => some s.refresh
  | .UpDirectory =>
    some (if s.path = [] then s else FileDialog.refresh { s with path := s.path.dropLast })
  | .CreateDirectory =>
    let name := if s.filename_edit.isEmpty then s.new_folder_name_text else s.filename_edit
    let p := s.path ++ [name]
    match s.env.create_dir_res p with
    | .ok _ => some (s.refresh.select (some (FileInfo.new s.env p)))
    | .error _ => some s
  | .Rename from_p to_p =>
    match s.env.rename_res from_p to_p with
    | .ok _ => some (s.refresh.select (some (FileInfo.new s.env to_p)))
    | .error _ => some s

/-- FileDialog::show, one frame: when Open, Escape first forces Cancelled,
then the frame's (at most one) command is applied, and a host-reported window
close overrides the final state to Cancelled; any non-Open state is reported
and becomes Closed. -/
def FileDialog.show_frame (s : FileDialog) (escape window_open : Bool)
    (cmd : Option Command) : Option FileDialog :=
  match s.state with
  | .Open =>
    let s1 := if escape then { s with state := .Cancelled } else s
    let s2 :=
      match cmd with
      | none => some s1
      | some c => s1.apply_command c
    s2.map fun t => if window_open then t else { t with state := .Cancelled }
  | _ => some { s with state := .Closed }

/-- Modelled from the spec: the repository source under src/ contains no
completion engine (no prefix-automaton code exists there), while §4.5 of the
spec describes one; the engine is therefore modelled from the spec's words.
A prefix automaton node: an accepting flag (true when the path from the root
spells a complete sibling name) and the labelled outgoing transitions. -/
inductive Trie where
  | node (accepting : Bool) (children : List (Char × Trie))

/-- The accepting flag of a node. -/
def Trie.accepting : Trie → Bool
  | .node a _ => a

/-- The outgoing transitions of a node. -/
def Trie.children : Trie → List (Char × Trie)
  | .node _ cs => cs

/-- Modelled from the spec: the chain of fresh automaton states spelling the
remaining suffix of one name. -/
def Trie.ofSuffix : List Char → Trie
  | [] => .node true []
  | c :: rest => .node false [(c, Trie.ofSuffix rest)]

mutual
/-- Modelled from the spec: add one sibling name to the automaton. -/
def Trie.insertChars : Trie → List Char → Trie
  | .node _ cs, [] => .node true cs
  | .node a cs, c :: rest => .node a (insertChild c rest cs)
termination_by _t w => (w.length, 0)

/-- Modelled from the spec: add the rest of a name below the transition
labelled c, creating the transition when it is missing. -/
def insertChild (c : Char) (rest : List Char) : List (Char × Trie) → List (Char × Trie)
  | [] => [(c, Trie.ofSuffix rest)]
  | (d, t) :: cs =>
    if c = d then (d, t.insertChars rest) :: cs
    else (d, t) :: insertChild c rest cs
termination_by cs => (rest.length, cs.length + 1)
end

/-- Modelled from the spec: the prefix automaton over the sibling-name set of
the directory being typed. -/
def Trie.build (names : List String) : Trie :=
  names.foldl (fun t n => t.insertChars n.data) (.node false [])

/-- The transition labelled c out of a node, if any. -/
def lookupChild (c : Char) : List (Char × Trie) → Option Trie
  | [] => none
  | (d, t) :: cs => if c = d then some t else lookupChild c cs

/-- Modelled from the spec: walk the automaton from a node consuming the
bytes of the typed trailing segment; none when at some point no matching
transition exists (no completion offered, input left as is). -/
def Trie.walk : Trie → List Char → Option Trie
  | t, [] => some t
  | t, c :: rest =>
    match lookupChild c t.children with
    | some u => u.walk rest
    | none => none

/-- Modelled from the spec: from the reached node, while the node is not
accepting and has exactly one outgoing transition, follow it and collect the
consumed byte; stop at an accepting node or at zero or more-than-one
outgoing transitions. -/
def Trie.extendUnique : Trie → List Char
  | .node true _ => []
  | .node false [(c, t)] => c :: t.extendUnique
  | .node false _ => []

/-- Modelled from the spec: the suffix the completion engine appends to the
edit buffer for a typed trailing segment, given the sibling names; the
appended span is exactly the part marked replaceable for the caller. -/
def completionSuffix (names : List String) (typed : List Char) : List Char :=
  match (Trie.build names).walk typed with
  | none => []
  | some t => t.extendUnique

/-- Concrete test environment: the root directory holds a directory d and a
file f, and d holds a single file g. -/
def envC : Env :=
  { meta := fun p =>
      if p = [] then some .Dir
      else if p = ["d"] then some .Dir
      else if p = ["f"] then some .File
      else if p = ["d", "g"] then some .File
      else none
    raw := fun p =>
      if p = [] then .ok [["d"], ["f"]]
      else if p = ["d"] then .ok [["d", "g"]]
      else .error "not found"
    rename_res := fun _ _ => .error "no such file"
    create_dir_res := fun _ => .error "denied" }

/-- Variant of the test environment whose rename calls succeed. -/
def envR : Env :=
  { envC with rename_res := fun _ _ => .ok () }

/-- The directory entry d of the test environment. -/
def dEntry : FileInfo := { path := ["d"], file_type := some .Dir, selected := false }

/-- The file entry f of the test environment. -/
def fEntry : FileInfo := { path := ["f"], file_type := some .File, selected := false }

/-- The file entry d/g of the test environment. -/
def gEntry : FileInfo := { path := ["d", "g"], file_type := some .File, selected := false }

/-- The dialog value produced by FileDialog::new(OpenFile, Some(root)) over
the test environment. -/
def fd0 : FileDialog :=
  { path := []
    path_edit := "/"
    selected_file := none
    filename_edit := ""
    files := .ok []
    state := .Closed
    dialog_type := .OpenFile
    show_files_filter := fun _ => true
    filename_filter := fun _ => true
    range_start := none
    multi_select_enabled := false
    show_system_files := false
    show_hidden := false
    new_folder_name_text := "New folder"
    env := envC }

/-- fd0 switched to multi-select and opened (open() refreshes the listing). -/
def fdMulti : FileDialog :=
  (fd0.multi_select true).open_dialog

/-- The dialog after the plain click on index 1 of the root listing: entry 1
flagged, anchor 1. -/
def c9s1 : FileDialog :=
  { fd0 with
    multi_select_enabled := true
    state := .Open
    files := .ok [dEntry, { fEntry with selected := true }]
    range_start := some 1 }

/-- The dialog after browsing into d: one-entry listing, anchor still 1. -/
def c9s2 : FileDialog :=
  { fd0 with
    multi_select_enabled := true
    state := .Open
    path := ["d"]
    path_edit := "/d"
    files := .ok [gEntry]
    range_start := some 1 }

/-- A reachable run: in the opened multi-select dialog over the test
environment, plain-click index 1 (setting the range anchor to 1), then
double-click into directory d (refreshing to a one-entry listing), then
range-click index 0. -/
def chainC9 : Option FileDialog := do
  let d1 ← fdMulti.apply_command (.MultiSelect 1)
  let d2 ← d1.apply_command (.BrowseDirectory (FileInfo.new envC ["d"]))
  d2.apply_command (.MultiSelectRange 0)

/-- The order invariant claimed for a listing: directories strictly precede
files, and within a group of equal directory-ness the entry names (the
comparator key) are ascending. -/
def sortedListing (l : List FileInfo) : Prop :=
  ∀ i j (hi : i < l.length) (hj : j < l.length), i < j →
    (l[i].is_dir = false → l[j].is_dir = false) ∧
      (l[i].is_dir = l[j].is_dir → cmpOptName (nameKey l[i]) (nameKey l[j]) ≠ .gt)

/-- A reachable run: in the opened multi-select dialog, plain-click index 0
twice; the second click toggles the (then uniquely selected) entry off. -/
def chainC1 : Option FileDialog := do
  let d1 ← fdMulti.apply_command (.MultiSelect 0)
  d1.apply_command (.MultiSelect 0)

/-- fd0, opened. -/
def sOpen : FileDialog := { fd0 with state := .Open }

/-- A concrete opened multi-select state with a two-entry listing and the
range anchor at 0. -/
def sC5 : FileDialog :=
  { fd0 with
    multi_select_enabled := true
    state := .Open
    files := .ok [dEntry, fEntry]
    range_start := some 0 }

/-- A concrete state whose cached listing is an error. -/
def sErr : FileDialog := { fd0 with files := .error "boom" }

/-- The opened dialog over the environment whose rename calls succeed. -/
def sRen : FileDialog := { sOpen with env := envR }

/-- A concrete state with one flagged and one unflagged entry cached. -/
def sSel : FileDialog :=
  { fd0 with
    files := .ok [{ dEntry with selected := true }, fEntry] }

theorem cmpName_swap (a : List Char) : ∀ b, cmpName b a = (cmpName a b).swap := by
  induction a with
  | nil => intro b; cases b <;> rfl
  | cons x as ih =>
    intro b
    cases b with
    | nil => rfl
    | cons y bs =>
      simp only [cmpName]
      rcases Nat.lt_trichotomy x.toNat y.toNat with h | h | h
      · rw [(Nat.compare_eq_lt).2 h, (Nat.compare_eq_gt).2 h]; rfl
      · rw [(Nat.compare_eq_eq).2 h, (Nat.compare_eq_eq).2 h.symm]
        exact ih bs
      · rw [(Nat.compare_eq_gt).2 h, (Nat.compare_eq_lt).2 h]; rfl

theorem cmpName_trans (a : List Char) :
    ∀ b c, cmpName a b ≠ .gt → cmpName b c ≠ .gt → cmpName a c ≠ .gt := by
  induction a with
  | nil => intro b c _ _; cases c <;> simp [cmpName]
  | cons x as ih =>
    intro b c hab hbc
    cases b with
    | nil => simp [cmpName] at hab
    | cons y bs =>
      cases c with
      | nil => simp [cmpName] at hbc
      | cons z cs =>
        simp only [cmpName] at hab hbc ⊢
        rcases Nat.lt_trichotomy x.toNat y.toNat with h1 | h1 | h1
        · rcases Nat.lt_trichotomy y.toNat z.toNat with h2 | h2 | h2
          · rw [(Nat.compare_eq_lt).2 (h1.trans h2)]; simp
          · rw [h2] at h1; rw [(Nat.compare_eq_lt).2 h1]; simp
          · rw [(Nat.compare_eq_gt).2 h2] at hbc; simp at hbc
        · rcases Nat.lt_trichotomy y.toNat z.toNat with h2 | h2 | h2
          · rw [h1]; rw [(Nat.compare_eq_lt).2 h2]; simp
          · rw [(Nat.compare_eq_eq).2 (h1.trans h2)]
            rw [(Nat.compare_eq_eq).2 h1] at hab
            rw [(Nat.compare_eq_eq).2 h2] at hbc
            exact ih bs cs hab hbc
          · rw [(Nat.compare_eq_gt).2 h2] at hbc; simp at hbc
        · rw [(Nat.compare_eq_gt).2 h1] at hab; simp at hab

theorem cmpOptName_swap (a b : Option (List Char)) :
    cmpOptName b a = (cmpOptName a b).swap := by
  cases a with
  | none => cases b with
    | none => rfl
    | some y => rfl
  | some x => cases b with
    | none => rfl
    | some y => exact cmpName_swap x y

theorem cmpOptName_trans (a b c : Option (List Char)) :
    cmpOptName a b ≠ .gt → cmpOptName b c ≠ .gt → cmpOptName a c ≠ .gt := by
  cases a <;> cases b <;> cases c <;> intro h1 h2 <;>
    first
    | exact cmpName_trans _ _ _ h1 h2
    | exact absurd rfl h1
    | exact absurd rfl h2
    | simp [cmpOptName]

theorem cmpEntry_swap (a b : FileInfo) : cmpEntry b a = (cmpEntry a b).swap := by
  unfold cmpEntry
  cases a.is_dir <;> cases b.is_dir <;> simp only [cmpBool] <;>
    first
    | rfl
    | rw [cmpOptName_swap]

theorem leEntry_total (a b : FileInfo) : (leEntry a b || leEntry b a) = true := by
  unfold leEntry
  rw [cmpEntry_swap a b]
  cases cmpEntry a b <;> rfl

theorem cmpEntry_trans (a b c : FileInfo) :
    cmpEntry a b ≠ .gt → cmpEntry b c ≠ .gt → cmpEntry a c ≠ .gt := by
  unfold cmpEntry
  cases a.is_dir <;> cases b.is_dir <;> cases c.is_dir <;>
    simp only [cmpBool] <;> intro h1 h2 <;>
    first
    | exact cmpOptName_trans _ _ _ h1 h2
    | exact absurd rfl h1
    | exact absurd rfl h2
    | decide

theorem leEntry_trans (a b c : FileInfo) :
    leEntry a b = true → leEntry b c = true → leEntry a c = true := by
  unfold leEntry
  intro h1 h2
  have g1 : cmpEntry a b ≠ .gt := by
    intro h; rw [h] at h1; exact Bool.noConfusion h1
  have g2 : cmpEntry b c ≠ .gt := by
    intro h; rw [h] at h2; exact Bool.noConfusion h2
  have g3 := cmpEntry_trans a b c g1 g2
  cases h : cmpEntry a c with
  | gt => exact absurd h g3
  | lt => rfl
  | eq => rfl

theorem setSelRange_length (l : List FileInfo) :
    ∀ k lo hi, (setSelRange l k lo hi).length = l.length := by
  induction l with
  | nil => intro k lo hi; rfl
  | cons e es ih => intro k lo hi; simp [setSelRange, ih]

theorem setSelRange_get (l : List FileInfo) :
    ∀ (k lo hi j : Nat) (hj : j < l.length) (hj2 : j < (setSelRange l k lo hi).length),
      (setSelRange l k lo hi).get ⟨j, hj2⟩ =
        if lo ≤ k + j ∧ k + j ≤ hi then { l.get ⟨j, hj⟩ with selected := true }
        else l.get ⟨j, hj⟩ := by
  induction l with
  | nil => intro k lo hi j hj _; exact absurd hj (Nat.not_lt_zero j)
  | cons e es ih =>
    intro k lo hi j hj hj2
    cases j with
    | zero => simp [setSelRange]
    | succ j =>
      have hj3 : j < es.length := Nat.lt_of_succ_lt_succ hj
      have hj4 : j < (setSelRange es (k + 1) lo hi).length := by
        rw [setSelRange_length]; exact hj3
      have := ih (k + 1) lo hi j hj3 hj4
      simp only [setSelRange, List.get_cons_succ]
      rw [this]
      have harith : k + 1 + j = k + (j + 1) := by omega
      rw [harith]

/-- Claim C5: a multi-select range click on index i is a no-op on the
selected flags when no anchor is set; with anchor a (and the span end in
bounds, see C9 for the panic otherwise) it sets the selected flag of exactly
the indices in the inclusive span from min(a,i) to max(a,i) to true and
leaves every entry outside the span unchanged. -/
theorem c5_select_range :
    (∀ (s : FileDialog) (idx : Nat), s.range_start = none → s.select_range idx = some s) ∧
    (∀ (s : FileDialog) (l : List FileInfo) (a idx : Nat),
      s.files = .ok l → s.range_start = some a → max idx a < l.length →
      ∃ l2, s.select_range idx = some { s with files := .ok l2 } ∧
        l2.length = l.length ∧
        ∀ (j : Nat) (hj : j < l.length) (hj2 : j < l2.length),
          (min idx a ≤ j ∧ j ≤ max idx a →
            l2.get ⟨j, hj2⟩ = { l.get ⟨j, hj⟩ with selected := true }) ∧
          (¬(min idx a ≤ j ∧ j ≤ max idx a) → l2.get ⟨j, hj2⟩ = l.get ⟨j, hj⟩)) := by
  constructor
  · intro s idx h
    unfold FileDialog.select_range
    cases hf : s.files with
    | error e => rfl
    | ok files => rw [h]
  · intro s l a idx hf ha hmax
    unfold FileDialog.select_range
    simp only [hf, ha]
    rw [if_pos hmax]
    refine ⟨setSelRange l 0 (min idx a) (max idx a), rfl, setSelRange_length l 0 _ _, ?_⟩
    intro j hj hj2
    have hget := setSelRange_get l 0 (min idx a) (max idx a) j hj hj2
    rw [Nat.zero_add] at hget
    constructor
    · intro hio
      rw [hget, if_pos hio]
    · intro hio
      rw [hget, if_neg hio]

/-- Witness for C5 at a concrete state: anchor 0, range click on index 1
flags both entries of the two-entry listing. -/
theorem c5_select_range_witness :
    sC5.range_start = some 0 ∧ sC5.files = .ok [dEntry, fEntry] ∧ max 1 0 < 2 ∧
      (∃ l2, sC5.select_range 1 = some { sC5 with files := .ok l2 } ∧
        l2.length = [dEntry, fEntry].length ∧
        ∀ (j : Nat) (hj : j < [dEntry, fEntry].length) (hj2 : j < l2.length),
          (min 1 0 ≤ j ∧ j ≤ max 1 0 →
            l2.get ⟨j, hj2⟩ = { [dEntry, fEntry].get ⟨j, hj⟩ with selected := true }) ∧
          (¬(min 1 0 ≤ j ∧ j ≤ max 1 0) → l2.get ⟨j, hj2⟩ = [dEntry, fEntry].get ⟨j, hj⟩)) ∧
      (sErr.range_start = none ∧ sErr.select_range 5 = some sErr) :=
  ⟨rfl, rfl, by decide,
    c5_select_range.2 sC5 [dEntry, fEntry] 0 1 rfl rfl (by decide),
    rfl, c5_select_range.1 sErr 5 rfl⟩

theorem read_folder_top_eval :
    read_folder envC [] false (fun _ => true) false = .ok [dEntry, fEntry] := by
  simp only [read_folder, envC, Except.map, List.filterMap_cons, List.filterMap_nil]
  simp [FileInfo.new, FileInfo.is_dir, FileInfo.is_file, FileInfo.get_file_name, fileNameOf,
    startsWithDot, List.mergeSort, List.merge, leEntry, cmpEntry, cmpBool, cmpOptName, cmpName,
    nameKey, dEntry, fEntry]

theorem read_folder_d_eval :
    read_folder envC ["d"] false (fun _ => true) false = .ok [gEntry] := by
  simp only [read_folder, envC, Except.map, List.filterMap_cons, List.filterMap_nil]
  simp [FileInfo.new, FileInfo.is_dir, FileInfo.is_file, FileInfo.get_file_name, fileNameOf,
    startsWithDot, List.mergeSort, List.merge, leEntry, cmpEntry, cmpBool, cmpOptName, cmpName,
    nameKey, gEntry]

theorem read_folder_unselected (env : Env) (p : List String) (ssf : Bool)
    (filt : List String → Bool) (hid : Bool) (l : List FileInfo)
    (h : read_folder env p ssf filt hid = .ok l) :
    ∀ e ∈ l, e.selected = false := by
  intro e he
  unfold read_folder at h
  cases hr : env.raw p with
  | error msg => rw [hr] at h; exact Except.noConfusion h
  | ok entries =>
    rw [hr] at h
    have hl := Except.ok.inj h
    rw [← hl] at he
    have hmem := (List.mergeSort_perm _ leEntry).mem_iff.1 he
    obtain ⟨q, _, hq⟩ := List.mem_filterMap.1 hmem
    simp only at hq
    split at hq
    · exact Option.noConfusion hq
    · split at hq
      · exact Option.noConfusion hq
      · split at hq
        · exact Option.noConfusion hq
        · obtain rfl := Option.some.inj hq
          rfl

/-- Claim C6: after a refresh (and so after open, set_path, navigation,
explicit refresh and the hidden-file toggle, which all funnel into refresh)
the single-selection field is cleared and no entry of the freshly built
listing carries a true selected flag. -/
theorem c6_refresh_clears_selection :
    ∀ s : FileDialog,
      s.refresh.selected_file = none ∧
      (∀ p, (s.set_path p).selected_file = none) ∧
      s.open_dialog.selected_file = none ∧
      ∀ l, s.refresh.files = .ok l → ∀ e ∈ l, e.selected = false := by
  intro s
  refine ⟨rfl, fun p => rfl, rfl, ?_⟩
  intro l hl
  exact read_folder_unselected _ _ _ _ _ _ hl

/-- Witness for C6: over the concrete environment the refreshed root listing
is the sorted pair (d, f) and both entries are unselected. -/
theorem c6_refresh_clears_selection_witness :
    fd0.refresh.selected_file = none ∧ fd0.refresh.files = .ok [dEntry, fEntry] ∧
      dEntry.selected = false :=
  ⟨(c6_refresh_clears_selection fd0).1,
    by simp only [fd0, FileDialog.refresh, FileDialog.select]; exact read_folder_top_eval,
    (c6_refresh_clears_selection fd0).2.2.2 [dEntry, fEntry]
      (by simp only [fd0, FileDialog.refresh, FileDialog.select]; exact read_folder_top_eval)
      dEntry (by simp)⟩

theorem filterMap_selected (l : List FileInfo) :
    (l.filterMap fun info => if info.selected then some info.path else none) =
      (l.filter fun i => i.selected).map (fun i => i.path) := by
  induction l with
  | nil => rfl
  | cons e es ih =>
    cases he : e.selected <;> simp [List.filterMap_cons, List.filter_cons, he, ih]

/-- Claim C10: selection() lists exactly the paths of the flagged entries in
listing order (a sublist of the listing's path sequence), and is empty
whenever the cached listing is an error. -/
theorem c10_selection :
    ∀ s : FileDialog,
      (∀ e, s.files = .error e → s.selection = []) ∧
      ∀ l, s.files = .ok l →
        s.selection = (l.filter fun i => i.selected).map (fun i => i.path) ∧
        s.selection.Sublist (l.map fun i => i.path) ∧
        ∀ p, p ∈ s.selection ↔ ∃ i ∈ l, i.selected = true ∧ i.path = p := by
  intro s
  constructor
  · intro e he
    unfold FileDialog.selection
    rw [he]
  · intro l hl
    have hsel : s.selection =
        (l.filter fun i => i.selected).map (fun i => i.path) := by
      unfold FileDialog.selection
      rw [hl]
      exact filterMap_selected l
    refine ⟨hsel, ?_, ?_⟩
    · rw [hsel]
      exact (List.filter_sublist l).map _
    · intro p
      rw [hsel]
      constructor
      · intro hp
        obtain ⟨i, hif, hip⟩ := List.mem_map.1 hp
        obtain ⟨hil, hisel⟩ := List.mem_filter.1 hif
        exact ⟨i, hil, hisel, hip⟩
      · intro ⟨i, hil, hisel, hip⟩
        exact List.mem_map.2 ⟨i, List.mem_filter.2 ⟨hil, hisel⟩, hip⟩

/-- Witness for C10 at concrete states: one flagged entry yields its path,
and an error listing yields the empty selection. -/
theorem c10_selection_witness :
    sSel.selection = [["d"]] ∧ sErr.selection = [] := by
  constructor
  · have h := ((c10_selection sSel).2 [{ dEntry with selected := true }, fEntry] rfl).1
    rw [h]
    simp [dEntry, fEntry]
  · exact (c10_selection sErr).1 "boom" rfl

/-- Claim C1 counterexample: plain-click index 0 twice in the opened
multi-select dialog; the second click toggles the uniquely selected entry
off, yet the anchor is some 0, not none as the claim requires. -/
theorem c1_counterexample :
    chainC1.map (fun d => (d.range_start, d.files)) =
        some (some 0, .ok [dEntry, fEntry]) ∧
      (some 0 : Option Nat) ≠ none := by
  refine ⟨?_, by simp⟩
  simp only [chainC1, fdMulti, fd0, FileDialog.multi_select, FileDialog.open_dialog,
    FileDialog.refresh, FileDialog.select]
  rw [read_folder_top_eval]
  simp [FileDialog.apply_command, FileDialog.select_reset_multi, Option.bind, dEntry, fEntry]

/-- Claim C1 (amended): a multi-select plain click on an in-bounds index i
clears the selected flag of every other entry and toggles entry i's flag,
and it records i as the new anchor unconditionally — also when the toggle
deselects entry i (the code never clears the anchor here). -/
theorem c1_plain_click :
    ∀ (s : FileDialog) (l : List FileInfo) (idx : Nat), s.files = .ok l →
      ∀ h : idx < l.length,
      ∃ l2, s.select_reset_multi idx =
          some { s with files := .ok l2, range_start := some idx } ∧
        l2.length = l.length ∧
        (∀ (j : Nat) (hj : j < l.length) (hj2 : j < l2.length), j ≠ idx →
          l2.get ⟨j, hj2⟩ = { l.get ⟨j, hj⟩ with selected := false }) ∧
        ∀ hj2 : idx < l2.length,
          l2.get ⟨idx, hj2⟩ =
            { l.get ⟨idx, h⟩ with selected := !(l.get ⟨idx, h⟩).selected } := by
  intro s l idx hf h
  unfold FileDialog.select_reset_multi
  simp only [hf]
  rw [dif_pos h]
  refine ⟨_, rfl, by simp, ?_, ?_⟩
  · intro j hj hj2 hne
    simp only [List.get_eq_getElem]
    rw [List.getElem_set_ne (fun hh => hne hh.symm)]
    simp
  · intro hj2
    simp only [List.get_eq_getElem]
    rw [List.getElem_set_self]

/-- Witness for the amended C1 at a concrete state: plain click on index 0
of the two-entry listing toggles entry 0 on and sets the anchor to 0. -/
theorem c1_plain_click_witness :
    sC5.files = .ok [dEntry, fEntry] ∧ 0 < 2 ∧
      (∃ l2, sC5.select_reset_multi 0 =
          some { sC5 with files := .ok l2, range_start := some 0 } ∧
        l2.length = [dEntry, fEntry].length ∧
        (∀ (j : Nat) (hj : j < [dEntry, fEntry].length) (hj2 : j < l2.length), j ≠ 0 →
          l2.get ⟨j, hj2⟩ = { [dEntry, fEntry].get ⟨j, hj⟩ with selected := false }) ∧
        ∀ hj2 : 0 < l2.length,
          l2.get ⟨0, hj2⟩ =
            { [dEntry, fEntry].get ⟨0, by decide⟩ with
                selected := !([dEntry, fEntry].get ⟨0, by decide⟩).selected }) :=
  ⟨rfl, by decide, c1_plain_click sC5 [dEntry, fEntry] 0 rfl (by decide)⟩

/-- Claim C2 counterexample: a single-select OpenFile dialog constructed
over an initial file path has can_open already true while no entry was ever
selected, refuting that can_open is false until a non-directory entry is
selected. -/
theorem c2_counterexample :
    (FileDialog.new .OpenFile (some ["f"]) envC).map
        (fun d => (d.can_open, d.selected_file, d.multi_select_enabled)) =
      some (true, none, false) := by
  have h0 : "f".isEmpty = false := by decide
  simp [FileDialog.new, envC, FileInfo.new, FileInfo.is_file, FileInfo.get_file_name,
    fileNameOf, FileDialog.can_open, pathToString, h0]

/-- Claim C2 (amended): in single-select mode can_open tests only the
filename edit field (non-empty and accepted by the filename filter), not the
selection; since selecting a non-directory copies its name into that field,
can_open is false while the field is empty and becomes true once a file with
a non-empty, filter-accepted name is selected — but it can also be true with
no selection at all (see the counterexample). Confirming a selected
non-directory in an OpenFile dialog sets the state to Selected. -/
theorem c2_can_open_single :
    (∀ s : FileDialog, s.multi_select_enabled = false → s.filename_edit = "" →
        s.can_open = false) ∧
    (∀ (s : FileDialog) (f : FileInfo), s.multi_select_enabled = false →
        f.is_dir = false → f.get_file_name ≠ "" →
        s.filename_filter f.get_file_name = true →
        (s.select (some f)).can_open = true) ∧
    (∀ (s : FileDialog) (f : FileInfo), s.selected_file = some f → f.is_dir = false →
        s.dialog_type = .OpenFile → s.open_selected.state = .Selected) := by
  refine ⟨?_, ?_, ?_⟩
  · intro s hm he
    have h0 : "".isEmpty = true := by decide
    simp [FileDialog.can_open, hm, he, h0]
  · intro s f hm hdir hne hfilt
    have hie : f.get_file_name.isEmpty = false := by
      cases hie : f.get_file_name.isEmpty with
      | false => rfl
      | true => exact absurd ((String.isEmpty_iff _).1 hie) hne
    simp [FileDialog.select, FileDialog.can_open, hm, hdir, hie, hfilt]
  · intro s f hsel hdir hdt
    simp [FileDialog.open_selected, hsel, hdir, hdt, FileDialog.confirm]

/-- Witness for the amended C2 at concrete states: empty field gives false,
selecting the file f gives true, confirming it yields Selected. -/
theorem c2_can_open_single_witness :
    sOpen.can_open = false ∧ (fd0.select (some fEntry)).can_open = true ∧
      (FileDialog.open_selected { fd0 with selected_file := some fEntry }).state =
        .Selected :=
  ⟨c2_can_open_single.1 sOpen rfl rfl,
    c2_can_open_single.2.1 fd0 fEntry rfl rfl (by decide) rfl,
    c2_can_open_single.2.2 { fd0 with selected_file := some fEntry } fEntry rfl rfl rfl⟩

/-- Claim C3 (spec-modelled, no completion code exists under src/): over the
automaton of the sibling set containing exactly report.txt, the typed prefix
rep auto-extends the buffer to report.txt with a non-empty appended
(replaceable) span; with an ambiguous next byte or an accepting reached node
nothing is appended, and in general a node with zero or at least two
outgoing transitions, or an accepting node, yields an empty extension. -/
theorem c3_completion :
    completionSuffix ["report.txt"] "rep".data = "ort.txt".data ∧
    "rep".data ++ completionSuffix ["report.txt"] "rep".data = "report.txt".data ∧
    completionSuffix ["report.txt"] "rep".data ≠ [] ∧
    completionSuffix ["abc", "abx"] "ab".data = [] ∧
    completionSuffix ["ab", "abc"] "ab".data = [] ∧
    (∀ cs, (Trie.node true cs).extendUnique = []) ∧
    (∀ (b : Bool) (c1 : Char) (t1 : Trie) (c2 : Char) (t2 : Trie) rest,
        (Trie.node b ((c1, t1) :: (c2, t2) :: rest)).extendUnique = []) ∧
    (∀ b : Bool, (Trie.node b []).extendUnique = []) := by
  refine ⟨?_, ?_, ?_, ?_, ?_, fun cs => rfl, ?_, ?_⟩
  · simp [completionSuffix, Trie.build, Trie.insertChars, insertChild, Trie.ofSuffix,
      Trie.walk, lookupChild, Trie.children, Trie.extendUnique]
  · simp [completionSuffix, Trie.build, Trie.insertChars, insertChild, Trie.ofSuffix,
      Trie.walk, lookupChild, Trie.children, Trie.extendUnique]
  · simp [completionSuffix, Trie.build, Trie.insertChars, insertChild, Trie.ofSuffix,
      Trie.walk, lookupChild, Trie.children, Trie.extendUnique]
  · simp [completionSuffix, Trie.build, Trie.insertChars, insertChild, Trie.ofSuffix,
      Trie.walk, lookupChild, Trie.children, Trie.extendUnique]
  · simp [completionSuffix, Trie.build, Trie.insertChars, insertChild, Trie.ofSuffix,
      Trie.walk, lookupChild, Trie.children, Trie.extendUnique]
  · intro b c1 t1 c2 t2 rest
    cases b <;> rfl
  · intro b
    cases b <;> rfl

theorem leEntry_claims (a b : FileInfo) (h : leEntry a b = true) :
    (a.is_dir = false → b.is_dir = false) ∧
      (a.is_dir = b.is_dir → cmpOptName (nameKey a) (nameKey b) ≠ .gt) := by
  unfold leEntry cmpEntry at h
  cases ha : a.is_dir <;> cases hb : b.is_dir <;>
    rw [ha, hb] at h <;> simp only [cmpBool] at h
  · refine ⟨fun _ => rfl, fun _ hg => ?_⟩
    rw [hg] at h
    exact Bool.noConfusion h
  · exact Bool.noConfusion h
  · exact ⟨fun hh => Bool.noConfusion hh, fun hh => Bool.noConfusion hh⟩
  · refine ⟨fun hh => hh, fun _ hg => ?_⟩
    rw [hg] at h
    exact Bool.noConfusion h

theorem read_folder_pairwise (env : Env) (p : List String) (ssf : Bool)
    (filt : List String → Bool) (hid : Bool) (l : List FileInfo)
    (h : read_folder env p ssf filt hid = .ok l) :
    List.Pairwise (fun a b => leEntry a b = true) l := by
  unfold read_folder at h
  cases hr : env.raw p with
  | error m => rw [hr] at h; exact Except.noConfusion h
  | ok entries =>
    rw [hr] at h
    have hl := Except.ok.inj h
    rw [← hl]
    exact List.sorted_mergeSort leEntry_trans leEntry_total _

theorem sortedListing_of_pairwise (l : List FileInfo)
    (h : List.Pairwise (fun a b => leEntry a b = true) l) : sortedListing l := by
  intro i j hi hj hij
  exact leEntry_claims _ _ (List.pairwise_iff_getElem.1 h i j hi hj hij)

/-- Claim C4: every successful read_folder listing has all directories
strictly before all files and ascending names within each group; in the
windows variant with drive enumeration on, the drive roots are prepended
verbatim, in enumeration order, ahead of a suffix with the same sort
invariant. -/
theorem c4_read_folder_sorted :
    (∀ (env : Env) (p : List String) (ssf : Bool) (filt : List String → Bool)
        (hid : Bool) (l : List FileInfo),
        read_folder env p ssf filt hid = .ok l → sortedListing l) ∧
    (∀ (env : Env) (p : List String) (ssf : Bool) (filt : List String → Bool)
        (drives : List (List String)) (l : List FileInfo),
        read_folder_win env p ssf filt true drives = .ok l →
          l.take drives.length = drives.map (FileInfo.new env) ∧
            sortedListing (l.drop drives.length)) := by
  constructor
  · intro env p ssf filt hid l h
    exact sortedListing_of_pairwise _ (read_folder_pairwise env p ssf filt hid l h)
  · intro env p ssf filt drives l h
    unfold read_folder_win at h
    cases hr : env.raw p with
    | error m => rw [hr] at h; exact Except.noConfusion h
    | ok entries =>
      rw [hr] at h
      have hl := Except.ok.inj h
      simp only [if_true] at hl
      rw [← hl]
      constructor
      · exact List.take_left' (by simp)
      · rw [List.drop_left' (by simp)]
        exact sortedListing_of_pairwise _
          (List.sorted_mergeSort leEntry_trans leEntry_total _)

theorem read_folder_win_eval :
    read_folder_win envC [] false (fun _ => true) true [["v"]] =
      .ok [{ path := ["v"], file_type := none, selected := false }, dEntry, fEntry] := by
  simp only [read_folder_win, envC, Except.map, List.filterMap_cons, List.filterMap_nil]
  simp [FileInfo.new, FileInfo.is_dir, FileInfo.is_file, FileInfo.get_file_name, fileNameOf,
    List.mergeSort, List.merge, leEntry, cmpEntry, cmpBool, cmpOptName, cmpName,
    nameKey, dEntry, fEntry]

/-- Witness for C4: the concrete root listing sorts the directory d before
the file f, and the windows variant prepends the drive root v verbatim. -/
theorem c4_read_folder_sorted_witness :
    read_folder envC [] false (fun _ => true) false = .ok [dEntry, fEntry] ∧
      (([dEntry, fEntry] : List FileInfo)[0].is_dir = false →
        ([dEntry, fEntry] : List FileInfo)[1].is_dir = false) ∧
      (([dEntry, fEntry] : List FileInfo)[0].is_dir =
          ([dEntry, fEntry] : List FileInfo)[1].is_dir →
        cmpOptName (nameKey ([dEntry, fEntry] : List FileInfo)[0])
            (nameKey ([dEntry, fEntry] : List FileInfo)[1]) ≠ .gt) ∧
      ([{ path := ["v"], file_type := none, selected := false }, dEntry, fEntry] :
            List FileInfo).take 1 =
          [["v"]].map (FileInfo.new envC) ∧
      sortedListing
        (([{ path := ["v"], file_type := none, selected := false }, dEntry, fEntry] :
            List FileInfo).drop 1) := by
  have h1 := c4_read_folder_sorted.1 envC [] false (fun _ => true) false [dEntry, fEntry]
    read_folder_top_eval
  have h2 := c4_read_folder_sorted.2 envC [] false (fun _ => true) [["v"]]
    [{ path := ["v"], file_type := none, selected := false }, dEntry, fEntry]
    read_folder_win_eval
  exact ⟨read_folder_top_eval, (h1 0 1 (by decide) (by decide) (by decide)).1,
    (h1 0 1 (by decide) (by decide) (by decide)).2, h2.1, h2.2⟩

theorem state_select_reset (s : FileDialog) (idx : Nat) (t : FileDialog)
    (h : s.select_reset_multi idx = some t) : t.state = s.state := by
  unfold FileDialog.select_reset_multi at h
  cases hf : s.files with
  | error e =>
    simp only [hf] at h
    obtain rfl := Option.some.inj h
    rfl
  | ok files =>
    simp only [hf] at h
    by_cases hidx : idx < files.length
    · rw [dif_pos hidx] at h
      obtain rfl := Option.some.inj h
      rfl
    · rw [dif_neg hidx] at h
      exact Option.noConfusion h

theorem state_select_switch (s : FileDialog) (idx : Nat) (t : FileDialog)
    (h : s.select_switch_multi idx = some t) : t.state = s.state := by
  unfold FileDialog.select_switch_multi at h
  cases hf : s.files with
  | error e =>
    simp only [hf] at h
    obtain rfl := Option.some.inj h
    rfl
  | ok files =>
    simp only [hf] at h
    by_cases hidx : idx < files.length
    · rw [dif_pos hidx] at h
      obtain rfl := Option.some.inj h
      rfl
    · rw [dif_neg hidx] at h
      exact Option.noConfusion h

theorem state_select_range (s : FileDialog) (idx : Nat) (t : FileDialog)
    (h : s.select_range idx = some t) : t.state = s.state := by
  unfold FileDialog.select_range at h
  cases hf : s.files with
  | error e =>
    simp only [hf] at h
    obtain rfl := Option.some.inj h
    rfl
  | ok files =>
    simp only [hf] at h
    cases hr : s.range_start with
    | none =>
      simp only [hr] at h
      obtain rfl := Option.some.inj h
      rfl
    | some a =>
      simp only [hr] at h
      by_cases hm : max idx a < files.length
      · rw [if_pos hm] at h
        obtain rfl := Option.some.inj h
        rfl
      · rw [if_neg hm] at h
        exact Option.noConfusion h

theorem state_open_selected (s : FileDialog) :
    s.open_selected.state = s.state ∨ s.open_selected.state = .Selected := by
  unfold FileDialog.open_selected
  split
  · split
    · exact Or.inl rfl
    · split
      · exact Or.inr rfl
      · exact Or.inl rfl
  · split
    · exact Or.inr rfl
    · exact Or.inl rfl

theorem state_of_apply_command (s : FileDialog) (c : Command) (t : FileDialog)
    (h : s.apply_command c = some t) :
    t.state = s.state ∨ t.state = .Selected ∨ c = .Cancel := by
  cases c with
  | Select info =>
    obtain rfl := Option.some.inj h
    exact Or.inl rfl
  | MultiSelect idx => exact Or.inl (state_select_reset s idx t h)
  | MultiSelectRange idx => exact Or.inl (state_select_range s idx t h)
  | MultiSelectSwitch idx => exact Or.inl (state_select_switch s idx t h)
  | Folder =>
    obtain rfl := Option.some.inj h
    exact Or.inr (Or.inl rfl)
  | Open info =>
    obtain rfl := Option.some.inj h
    exact (state_open_selected (s.select (some info))).imp (fun hh => hh) Or.inl
  | OpenSelected =>
    obtain rfl := Option.some.inj h
    exact (state_open_selected s).imp (fun hh => hh) Or.inl
  | BrowseDirectory dir =>
    obtain rfl := Option.some.inj h
    exact (state_open_selected { s with selected_file := some dir }).imp
      (fun hh => hh) Or.inl
  | Save file =>
    obtain rfl := Option.some.inj h
    exact Or.inr (Or.inl rfl)
  | Cancel => exact Or.inr (Or.inr rfl)
  | Refresh =>
    obtain rfl := Option.some.inj h
    exact Or.inl rfl
  | UpDirectory =>
    obtain rfl := Option.some.inj h
    left
    split <;> rfl
  | CreateDirectory =>
    simp only [FileDialog.apply_command] at h
    cases hc : s.env.create_dir_res
        (s.path ++ [if s.filename_edit.isEmpty then s.new_folder_name_text
          else s.filename_edit]) with
    | ok u =>
      rw [hc] at h
      obtain rfl := Option.some.inj h
      exact Or.inl rfl
    | error e =>
      rw [hc] at h
      obtain rfl := Option.some.inj h
      exact Or.inl rfl
  | Rename f_p t_p =>
    simp only [FileDialog.apply_command] at h
    cases hc : s.env.rename_res f_p t_p with
    | ok u =>
      rw [hc] at h
      obtain rfl := Option.some.inj h
      exact Or.inl rfl
    | error e =>
      rw [hc] at h
      obtain rfl := Option.some.inj h
      exact Or.inl rfl

/-- Claim C7 (amended): any show() call in a non-Open (in particular
Selected or Cancelled) state reports Closed; from Open, the final state is
Cancelled when the host reports the window closed, when the cancel command
is applied, or when Escape is pressed with no command applied that frame —
and Cancelled arises only when Escape was pressed, the window closed, or the
cancel command applied (Escape alone does not force Cancelled: a confirm
command applied in the same frame overrides it to Selected, see the
counterexample). -/
theorem c7_show_transitions :
    (∀ (s : FileDialog) (esc w : Bool) (cmd : Option Command), s.state ≠ .Open →
        s.show_frame esc w cmd = some { s with state := .Closed }) ∧
    (∀ (s : FileDialog) (esc : Bool) (cmd : Option Command) (t : FileDialog),
        s.state = .Open → s.show_frame esc false cmd = some t → t.state = .Cancelled) ∧
    (∀ (s : FileDialog) (esc : Bool) (t : FileDialog), s.state = .Open →
        s.show_frame esc true (some .Cancel) = some t → t.state = .Cancelled) ∧
    (∀ (s : FileDialog) (t : FileDialog), s.state = .Open →
        s.show_frame true true none = some t → t.state = .Cancelled) ∧
    (∀ (s : FileDialog) (esc w : Bool) (cmd : Option Command) (t : FileDialog),
        s.state = .Open → s.show_frame esc w cmd = some t → t.state = .Cancelled →
        esc = true ∨ w = false ∨ cmd = some .Cancel) := by
  refine ⟨?_, ?_, ?_, ?_, ?_⟩
  · intro s esc w cmd hs
    unfold FileDialog.show_frame
    cases hst : s.state with
    | Open => exact absurd hst hs
    | Closed => rfl
    | Cancelled => rfl
    | Selected => rfl
  · intro s esc cmd t hs h
    unfold FileDialog.show_frame at h
    simp only [hs] at h
    obtain ⟨a, _, hat⟩ := Option.map_eq_some'.1 h
    simp only [Bool.false_eq_true, if_false] at hat
    rw [← hat]
  · intro s esc t hs h
    unfold FileDialog.show_frame at h
    simp only [hs, FileDialog.apply_command] at h
    obtain ⟨a, ha, hat⟩ := Option.map_eq_some'.1 h
    try simp only [if_true] at hat
    obtain rfl := Option.some.inj ha
    rw [← hat]
  · intro s t hs h
    unfold FileDialog.show_frame at h
    simp only [hs, if_true] at h
    obtain rfl := Option.some.inj h
    rfl
  · intro s esc w cmd t hs h hc
    cases w with
    | false => exact Or.inr (Or.inl rfl)
    | true =>
      cases esc with
      | true => exact Or.inl rfl
      | false =>
        unfold FileDialog.show_frame at h
        simp only [hs, Bool.false_eq_true, if_false, if_true] at h
        obtain ⟨a, ha, hat⟩ := Option.map_eq_some'.1 h
        try simp only [if_true] at hat
        cases cmd with
        | none =>
          obtain rfl := Option.some.inj ha
          rw [← hat] at hc
          rw [hs] at hc
          exact absurd hc (by simp)
        | some c =>
          rcases state_of_apply_command s c a ha with hh | hh | hh
          · rw [← hat, hh, hs] at hc
            exact absurd hc (by simp)
          · rw [← hat, hh] at hc
            exact absurd hc (by simp)
          · exact Or.inr (Or.inr (by rw [hh]))

/-- Claim C7 counterexample: Escape is pressed during a frame whose command
is a confirming Save; the final state is Selected, not Cancelled, refuting
that Escape always produces the Cancelled transition. -/
theorem c7_counterexample :
    (sOpen.show_frame true true (some (.Save fEntry))).map (fun d => d.state) =
        some .Selected ∧
      (State.Selected ≠ State.Cancelled) := by
  exact ⟨rfl, by simp⟩

/-- Witness for the amended C7 at concrete states: a Closed dialog reports
Closed; from Open the window-closed frame, the cancel command and a plain
Escape frame all end Cancelled, and a frame ending Cancelled implies one of
the three causes. -/
theorem c7_show_transitions_witness :
    fd0.show_frame false true none = some { fd0 with state := .Closed } ∧
      (∃ t, sOpen.show_frame false false none = some t ∧ t.state = .Cancelled) ∧
      (∃ t, sOpen.show_frame false true (some .Cancel) = some t ∧
        t.state = .Cancelled) ∧
      (∃ t, sOpen.show_frame true true none = some t ∧ t.state = .Cancelled) ∧
      (false = true ∨ true = false ∨ (some Command.Cancel : Option Command) =
        some .Cancel) := by
  refine ⟨c7_show_transitions.1 fd0 false true none (by simp [fd0]), ?_, ?_, ?_, ?_⟩
  · exact ⟨_, rfl, c7_show_transitions.2.1 sOpen false none _ rfl rfl⟩
  · exact ⟨_, rfl, c7_show_transitions.2.2.1 sOpen false _ rfl rfl⟩
  · exact ⟨_, rfl, c7_show_transitions.2.2.2.1 sOpen _ rfl rfl⟩
  · exact c7_show_transitions.2.2.2.2 sOpen false true (some .Cancel) _ rfl rfl
      (c7_show_transitions.2.2.1 sOpen false _ rfl rfl)

/-- Claim C8: a rename command whose backend call fails changes nothing at
all (the controller state is returned unchanged, so cursor, listing,
selection, edit fields and dialog state are all preserved); a successful one
refreshes the listing from the backend and re-selects a freshly constructed
entry for the target path, leaving the dialog state as it was. -/
theorem c8_rename :
    (∀ (s : FileDialog) (f_p t_p : List String) (e : String),
        s.env.rename_res f_p t_p = .error e →
        s.apply_command (.Rename f_p t_p) = some s) ∧
    (∀ (s : FileDialog) (f_p t_p : List String) (u : Unit),
        s.env.rename_res f_p t_p = .ok u →
        ∃ d, s.apply_command (.Rename f_p t_p) = some d ∧
          d.selected_file = some (FileInfo.new s.env t_p) ∧
          d.files = read_folder s.env s.path s.show_system_files s.show_files_filter
            s.show_hidden ∧
          d.state = s.state ∧ d.path = s.path ∧ d.range_start = s.range_start) := by
  constructor
  · intro s f_p t_p e h
    simp only [FileDialog.apply_command, h]
  · intro s f_p t_p u h
    simp only [FileDialog.apply_command, h]
    exact ⟨_, rfl, rfl, rfl, rfl, rfl, rfl⟩

/-- Witness for C8: over the failing backend the rename leaves the concrete
state untouched; over the succeeding backend it refreshes and re-selects the
target. -/
theorem c8_rename_witness :
    sOpen.env.rename_res ["a"] ["b"] = .error "no such file" ∧
      sOpen.apply_command (.Rename ["a"] ["b"]) = some sOpen ∧
      sRen.env.rename_res ["a"] ["b"] = .ok () ∧
      (∃ d, sRen.apply_command (.Rename ["a"] ["b"]) = some d ∧
        d.selected_file = some (FileInfo.new sRen.env ["b"]) ∧
        d.files = read_folder sRen.env sRen.path sRen.show_system_files
          sRen.show_files_filter sRen.show_hidden ∧
        d.state = sRen.state ∧ d.path = sRen.path ∧
        d.range_start = sRen.range_start) :=
  ⟨rfl, c8_rename.1 sOpen ["a"] ["b"] "no such file" rfl, rfl,
    c8_rename.2 sRen ["a"] ["b"] () rfl⟩

/-- Claim C9: the multi-select operations are total only under the bounds
precondition (clicked index and any stored anchor below the listing length);
refresh leaves the range anchor untouched; and the panic is reachable: after
anchoring at index 1 of the two-entry root listing and browsing into
directory d (whose listing has one entry), a range click on index 0 hits the
out-of-bounds anchor and select_range's indexing panics (none). -/
theorem c9_multi_select_bounds :
    (∀ s : FileDialog, s.refresh.range_start = s.range_start) ∧
    (∀ (s : FileDialog) (l : List FileInfo) (idx : Nat),
        s.files = .ok l → idx < l.length →
        (∀ a, s.range_start = some a → a < l.length) →
        (s.select_range idx).isSome ∧ (s.select_reset_multi idx).isSome ∧
          (s.select_switch_multi idx).isSome) ∧
    chainC9 = none := by
  refine ⟨fun s => rfl, ?_, ?_⟩
  · intro s l idx hf hidx hanchor
    refine ⟨?_, ?_, ?_⟩
    · unfold FileDialog.select_range
      simp only [hf]
      cases hr : s.range_start with
      | none => rfl
      | some a =>
        have hm : max idx a < l.length := Nat.max_lt.2 ⟨hidx, hanchor a hr⟩
        simp [hm]
    · unfold FileDialog.select_reset_multi
      simp only [hf]
      rw [dif_pos hidx]
      rfl
    · unfold FileDialog.select_switch_multi
      simp only [hf]
      rw [dif_pos hidx]
      rfl
  · have hfd : fdMulti =
        { fd0 with
          multi_select_enabled := true
          state := .Open
          files := .ok [dEntry, fEntry] } := by
      simp only [fdMulti, fd0, FileDialog.multi_select, FileDialog.open_dialog,
        FileDialog.refresh, FileDialog.select]
      rw [read_folder_top_eval]
      rfl
    have h1 : fdMulti.apply_command (.MultiSelect 1) = some c9s1 := by
      rw [hfd]
      rfl
    have h2 : c9s1.apply_command (.BrowseDirectory (FileInfo.new envC ["d"])) =
        some c9s2 := by
      have hd : (FileInfo.new envC ["d"]).is_dir = true := rfl
      have he : fd0.env = envC := rfl
      have key : read_folder envC ["d"] fd0.show_system_files fd0.show_files_filter
          fd0.show_hidden = .ok [gEntry] := read_folder_d_eval
      simp only [FileDialog.apply_command, FileDialog.open_selected, FileDialog.set_path,
        FileDialog.refresh, FileDialog.select, c9s1, hd, if_true, he]
      rw [show (FileInfo.new envC ["d"]).path = ["d"] from rfl]
      rw [key]
      rfl
    have h3 : c9s2.apply_command (.MultiSelectRange 0) = none := rfl
    simp [chainC9, h1, h2, h3]

/-- Witness for C9's bounds part at a concrete state: index 1 and anchor 0
are in bounds of the two-entry listing, so all three operations succeed. -/
theorem c9_multi_select_bounds_witness :
    sC5.files = .ok [dEntry, fEntry] ∧ 1 < 2 ∧
      (∀ a, sC5.range_start = some a → a < ([dEntry, fEntry] : List FileInfo).length) ∧
      ((sC5.select_range 1).isSome ∧ (sC5.select_reset_multi 1).isSome ∧
        (sC5.select_switch_multi 1).isSome) ∧
      sC5.refresh.range_start = sC5.range_start :=
  ⟨rfl, by decide,
    fun a ha => by
      have h0 : sC5.range_start = some 0 := rfl
      rw [h0] at ha
      obtain rfl := Option.some.inj ha
      decide,
    c9_multi_select_bounds.2.1 sC5 [dEntry, fEntry] 1 rfl (by decide)
      (fun a ha => by
        have h0 : sC5.range_start = some 0 := rfl
        rw [h0] at ha
        obtain rfl := Option.some.inj ha
        decide),
    c9_multi_select_bounds.1 sC5⟩

end EguiFile
